import Mathlib

/-!
Verification of the shipcat manifest resolution subsystem.

This file gives a shallow embedding of the secret-reconciliation,
validation and vault-client code of `shipcat_definitions`
(`src/manifest.rs` and `src/vault.rs`) and proves the spec claims
about them.

Modelling conventions:
* Rust `BTreeMap<String, String>` is embedded as an association list
  with unique keys (`SMap`).  Insertion overwrites in place, so the
  embedding differs from `BTreeMap` only in iteration order, which the
  verified claims do not depend on (it can only affect *which* of
  several conflicting keys is reported first; those theorems are stated
  existentially).
* Rust `BTreeSet<String>` is embedded as a sorted duplicate-free list,
  matching `BTreeSet` iteration order exactly.
* HTTP transport plus serde parsing is abstracted as a responder
  function from the request URL to an outcome (transport failure, or a
  status code plus a parse result); the vault logic downstream of that
  point is embedded directly from `src/vault.rs`.
* Machine integers (`u32`, `u64`) become `Nat`, and `i64` becomes
  `Int`; no arithmetic near overflow occurs in the verified code.
* `warn!`/`debug!` logging is side-effect free and not modelled.
-/

set_option autoImplicit false

namespace Shipcat

/-! ### Association-list maps (embedding of `BTreeMap<String, String>`) -/

/-- Map from `String` to `String`: content model of `BTreeMap<String, String>`. -/
abbrev SMap := List (String × String)

/-- Lookup in an association list (first matching key). -/
def mapLookup : SMap → String → Option String
  | [], _ => none
  | (k1, v1) :: t, k => if k1 = k then some v1 else mapLookup t k

/-- Insertion overwriting in place, as `BTreeMap::insert` (content-wise). -/
def mapInsert : SMap → String → String → SMap
  | [], k, v => [(k, v)]
  | (k1, v1) :: t, k, v => if k1 = k then (k, v) :: t else (k1, v1) :: mapInsert t k v

/-- The keys of a map, in iteration order. -/
def mapKeys (m : SMap) : List String := m.map Prod.fst

/-- `BTreeMap::append`: every entry of `other` is moved into `m`,
overwriting entries of `m` with the same key. -/
def mapAppend (m other : SMap) : SMap :=
  other.foldl (fun acc kv => mapInsert acc kv.1 kv.2) m

/-! ### Sorted sets (embedding of `BTreeSet<String>`) -/

/-- Insertion into a sorted duplicate-free list, as `BTreeSet::insert`. -/
def setInsert : List String → String → List String
  | [], k => [k]
  | k1 :: t, k =>
    if k = k1 then k1 :: t
    else if k < k1 then k :: k1 :: t
    else k1 :: setInsert t k

/-- Insert every element of `ks` into the set `s`. -/
def setInsertAll (s : List String) (ks : List String) : List String :=
  ks.foldl setInsert s

/-- First element of `xs` that is also in `ys`.  For sorted `xs` this is the
smallest common element, i.e. `BTreeSet::intersection(..).next()`. -/
def firstCommon (xs ys : List String) : Option String :=
  xs.find? (fun k => ys.contains k)

/-! ### Base64 (model of the external `base64` crate's decode check) -/

/-- A character of the standard base64 alphabet. -/
def isBase64Char (c : Char) : Bool :=
  c.isAlphanum || c == '+' || c == '/'

/-- `ends_with("/")` on a string, via its character list (kernel-reducible). -/
def endsWithSlash (s : String) : Bool :=
  s.toList.getLast? == some '/'

/-- Model of `base64::decode(s).is_ok()` for the standard configuration:
length a multiple of four, standard alphabet, at most two padding
characters and only at the very end.  The external crate is not part of
this repository; only determinism of the check and its verdicts on the
concrete strings appearing in the claims matter for the theorems below. -/
def base64Decodable (s : String) : Bool :=
  let cs := s.toList
  let pad := cs.drop (cs.takeWhile isBase64Char).length
  cs.length % 4 == 0 && pad.all (fun c => c == '=') && Nat.ble pad.length 2

/-! ### Vault client (embedding of `src/vault.rs`) -/

/-- Secrets in vault values can be integers or strings (serde untagged),
from `enum SecretValue` in `src/vault.rs`. -/
inductive SecretValue
  | S (s : String)
  | I (i : Int)
deriving DecidableEq

/-- `impl From<SecretValue> for String`: integers are coerced to their
decimal string form. -/
def SecretValue.asString : SecretValue → String
  | .I i => ToString.toString i
  | .S s => s

/-- Secret data retrieved from Vault using only standard fields
(`struct Secret` in `src/vault.rs`). -/
structure Secret where
  data : List (String × SecretValue)
  lease_duration : Nat
deriving DecidableEq

/-- Lookup in the parsed `data` map of a secret. -/
def secretDataLookup : List (String × SecretValue) → String → Option SecretValue
  | [], _ => none
  | (k1, v1) :: t, k => if k1 = k then some v1 else secretDataLookup t k

/-- List data retrieved from Vault when listing available secrets
(`struct ListSecrets` in `src/vault.rs`). -/
structure ListSecrets where
  data : List (String × List String)
deriving DecidableEq

/-- Lookup in the parsed `data` map of a list response. -/
def listDataLookup : List (String × List String) → String → Option (List String)
  | [], _ => none
  | (k1, v1) :: t, k => if k1 = k then some v1 else listDataLookup t k

/-- Vault usage mode (`enum Mode` in `src/vault.rs`). -/
inductive Mode
  | Standard
  | Mocked
deriving DecidableEq

/-- Vault error kinds (`enum VErrKind` in `src/vault.rs`), plus the
`failure::Context` wrapping used by `Vault::read`, and the two generic
failures (`serde_json` parse failure, and the `bail!` for a list
response without a `keys` entry). -/
inductive VErr
  | InvalidSecretForm (path : String)
  | SecretNotAccessible (path : String) (cause : VErr)
  | MissingAddr
  | MissingToken
  | UnexpectedHttpStatus (status : Nat) (url : String)
  | Url (url : String)
  | ParseFailed (url : String)
  | MissingKeysList (url : String)
deriving DecidableEq

/-- Outcome of one HTTP GET followed by a serde parse of the body,
abstracting `reqwest` + `serde_json`: either the transport fails
(`send()` returns Err), or a status code arrives together with the
parse result of the body (`none` = the body does not parse). -/
inductive HttpGet (α : Type)
  | transportFailed
  | reply (status : Nat) (parsed : Option α)

/-- `StatusCode::is_success()`: a 2xx status. -/
abbrev is2xx (s : Nat) : Prop := 200 ≤ s ∧ s < 300

/-- Vault client (`struct Vault` in `src/vault.rs`).  The `reqwest`
client together with the token header and body parsing is abstracted
into the two responder functions (one per parse type used). -/
structure Vault where
  addr : String
  token : String
  mode : Mode
  getResponse : String → HttpGet Secret
  listResponse : String → HttpGet ListSecrets

/-- The actual HTTP GET logic (`Vault::get_secret`). -/
def Vault.get_secret (v : Vault) (path : String) : Except VErr Secret :=
  let url := v.addr ++ "v1/" ++ path
  match v.getResponse url with
  | .transportFailed => .error (.Url url)
  | .reply status parsed =>
    if is2xx status then
      match parsed with
      | some s => .ok s
      | none => .error (.ParseFailed url)
    else .error (.UnexpectedHttpStatus status url)

/-- `Vault::read`: read a secret, or return fixed dummy data in mocked mode. -/
def Vault.read (v : Vault) (key : String) : Except VErr String :=
  let pth := "secret/" ++ key
  if v.mode = .Mocked then
    -- arbitrary base64 encoded value so it is compatible with everything
    .ok "aGVsbG8gd29ybGQ="
  else
    match v.get_secret pth with
    | .error e => .error (.SecretNotAccessible pth e)
    | .ok secret =>
      match secretDataLookup secret.data "value" with
      | none => .error (.InvalidSecretForm pth)
      | some sv => .ok sv.asString

/-- `Vault::list`: list the keys in the folder a service is in. -/
def Vault.list (v : Vault) (path : String) : Except VErr (List String) :=
  let url := v.addr ++ "v1/secret/" ++ path ++ "?list=true"
  match v.listResponse url with
  | .transportFailed => .error (.Url url)
  | .reply status parsed =>
    if is2xx status then
      match parsed with
      | none => .error (.ParseFailed url)
      | some lsec =>
        match listDataLookup lsec.data "keys" with
        | none => .error (.MissingKeysList url)
        | some ks => .ok (ks.filter (fun e => !(endsWithSlash e)))
    else .error (.UnexpectedHttpStatus status url)

/-! ### Manifest data model (embedding of `src/manifest.rs`)

The sub-structures imported from the `structs` module (`Metadata`,
`Resources`, `Worker`, ...) are not part of the given sources apart
from `Gate`; following the spec, each carries its own invariant check,
which is abstracted as the result it returns. -/

/-- Result of running `Manifest::verify`: success, a `bail!` error with
its message, or a Rust panic (from `assert!`/`unwrap`). -/
inductive VRes
  | ok
  | err (msg : String)
  | panicked (msg : String)
deriving DecidableEq

/-- Short-circuit sequencing of two checks, as `?` propagation. -/
def VRes.seq : VRes → VRes → VRes
  | .ok, b => b
  | .err m, _ => .err m
  | .panicked m, _ => .panicked m

/-- Lift a sub-structure check into `VRes`. -/
def ofCheck : Except String Unit → VRes
  | .ok _ => .ok
  | .error m => .err m

/-- Run a list of checks left to right, stopping at the first failure
(a `for` loop whose body ends in `?`). -/
def vresAll (l : List VRes) : VRes :=
  l.foldl VRes.seq .ok

/-- Run the verify of every element of a vector of sub-structures. -/
def seqAll (l : List (Except String Unit)) : VRes :=
  vresAll (l.map ofCheck)

/-- Modelled from the spec: the metadata block; `Metadata::verify`
(checked against `conf.teams`) is missing from the sources and is
abstracted as the check result it returns. -/
structure Metadata where
  verify : List String → Except String Unit

/-- Modelled from the spec: sub-structure whose own invariant check is
missing from the sources; abstracted as the result of its `verify`. -/
structure DataHandling where
  verify : Except String Unit

/-- Modelled from the spec: as `DataHandling`. -/
structure Resources where
  verify : Except String Unit

/-- Modelled from the spec: as `DataHandling`. -/
structure Dependency where
  verify : Except String Unit

/-- Modelled from the spec: as `DataHandling`. -/
structure HostAlias where
  verify : Except String Unit

/-- Modelled from the spec: as `DataHandling`. -/
structure Tolerations where
  verify : Except String Unit

/-- Modelled from the spec: as `DataHandling`. -/
structure InitContainer where
  verify : Except String Unit

/-- Modelled from the spec: as `DataHandling`. -/
structure Port where
  verify : Except String Unit

/-- Modelled from the spec: as `DataHandling`. -/
structure Rbac where
  verify : Except String Unit

/-- Modelled from the spec: as `DataHandling`. -/
structure PersistentVolume where
  verify : Except String Unit

/-- Modelled from the spec: as `DataHandling`. -/
structure ConfigMap where
  verify : Except String Unit

/-- Modelled from the spec: as `DataHandling` (an RDS database block). -/
structure Rds where
  verify : Except String Unit

/-- Modelled from the spec: as `DataHandling` (an ElastiCache block). -/
structure ElastiCache where
  verify : Except String Unit

/-- Modelled from the spec: rolling-update parameters;
`RollingUpdate::verify` takes the manifest's replica count. -/
structure RollingUpdate where
  verify : Nat → Except String Unit

/-- Modelled from the spec: the deprecated `health` abstraction; only
its presence is inspected by `Manifest::verify`. -/
structure HealthCheck where
  uri : String
  wait : Nat

/-- Modelled from the spec: a kubernetes probe; only its presence is
inspected by `Manifest::verify`. -/
structure Probe where
  path : String

/-- Modelled from the spec: the Kong block; only its presence is
inspected by `Manifest::verify`. -/
structure Kong where
  uris : String

/-- Gate setup for a service (`src/structs/gate.rs`). -/
structure Gate where
  websockets : Bool
  public : Bool

/-- Modelled from the spec: an ordered env-var mapping with a parallel
classification — values equal to the sentinel `IN_VAULT` are
vault-sourced, values with a templating marker are template-sourced,
the rest are plain.  `EnvVars` itself is missing from the sources;
what `Manifest::secrets` consumes of it are the two methods
`vault_secrets()` (the vault-sourced keys) and `template_secrets()`
(the template-sourced keys with their resolved values, in order), so
those are carried directly, together with the result of
`EnvVars::verify`. -/
structure EnvVars where
  vault_secrets : List String
  template_secrets : List (String × String)
  verify : Except String Unit

/-- Modelled from the spec: a worker deployment, carrying its own env
container and its own invariant check. -/
structure Worker where
  env : EnvVars
  verify : Except String Unit

/-- Modelled from the spec: as `Worker`. -/
structure Sidecar where
  env : EnvVars
  verify : Except String Unit

/-- Modelled from the spec: as `Worker`. -/
structure CronJob where
  env : EnvVars
  verify : Except String Unit

/-- Vault options (`struct VaultOpts`): override of service name and
region for secrets. -/
structure VaultOpts where
  name : String
  region : Option String

/-- Modelled from the spec: regional vault configuration; `url` is the
vault address and `folder` the per-region secret folder. -/
structure VaultConfig where
  url : String
  folder : String

/-- Modelled from the spec: the region's version scheme; its check of a
declared version is abstracted as the function it computes. -/
structure VersionScheme where
  verify : String → Except String Unit

/-- Modelled from the spec: per-region settings consumed by
`Manifest::verify`. -/
structure Region where
  name : String
  versioningScheme : VersionScheme

/-- Modelled from the spec: the global config; `Manifest::verify` only
consumes its team list (through `Metadata::verify`). -/
structure Config where
  teams : List String

/-- Main manifest (`struct Manifest` in `src/manifest.rs`), restricted
to the fields read by `Manifest::verify`, `Manifest::secrets` and their
helpers; fields the embedded code never touches (volumes, labels,
lifecycle, ...) are omitted.  `namespace` is a Lean keyword, so that
field is called `namespace_`. -/
structure Manifest where
  name : String
  publiclyAccessible : Bool
  external : Bool
  regions : List String
  metadata : Option Metadata
  dataHandling : Option DataHandling
  version : Option String
  resources : Option Resources
  replicaCount : Option Nat
  env : EnvVars
  secretFiles : SMap
  configs : Option ConfigMap
  vault : Option VaultOpts
  httpPort : Option Nat
  ports : List Port
  health : Option HealthCheck
  dependencies : List Dependency
  workers : List Worker
  sidecars : List Sidecar
  readinessProbe : Option Probe
  rollingUpdate : Option RollingUpdate
  tolerations : List Tolerations
  hostAliases : List HostAlias
  initContainers : List InitContainer
  cronJobs : List CronJob
  kong : Option Kong
  gate : Option Gate
  database : Option Rds
  redis : Option ElastiCache
  rbac : List Rbac
  persistentVolumes : List PersistentVolume
  image : Option String
  imageSize : Option Nat
  chart : Option String
  region : String
  environment : String
  namespace_ : String
  secrets : SMap
  kind : Nat

/-! ### Validator (embedding of `Manifest::verify`) -/

/-- `starts_with('-')` on a string, via its character list (kernel-reducible). -/
def startsWithDash (s : String) : Bool :=
  s.toList.head? == some '-'

/-- `ends_with('-')` on a string, via its character list (kernel-reducible). -/
def endsWithDash (s : String) : Bool :=
  s.toList.getLast? == some '-'

/-- A character allowed by the name regex `[0-9a-z\-]`. -/
def nameCharOk (c : Char) : Bool :=
  c.isDigit || (Char.ofNat 97 ≤ c && c ≤ Char.ofNat 122) || c == '-'

/-- The name regex `^[0-9a-z\-]{1,50}$`. -/
def nameRegexMatch (s : String) : Bool :=
  Nat.ble 1 s.length && Nat.ble s.length 50 && s.toList.all nameCharOk

/-- Head of `Manifest::verify`, run for every service including
external ones: region membership, name pattern, no leading or trailing
dash, data-handling check, metadata check. -/
def Manifest.verifyHead (m : Manifest) (conf : Config) : VRes :=
  if !(m.regions.contains m.region) then
    .err ("Unsupported region " ++ m.region ++ " for service " ++ m.name)
  else if !(nameRegexMatch m.name) then
    .err "Please use a short, lower case service names with dashes"
  else if endsWithDash m.name || startsWithDash m.name then
    .err "Please use dashes to separate words only"
  else
    VRes.seq
      (match m.dataHandling with
       | some dh => ofCheck dh.verify
       | none => .ok)
      (match m.metadata with
       | some md => ofCheck (md.verify conf.teams)
       | none => .err ("Missing metadata for " ++ m.name))

/-- Version-scheme check, if a version is declared. -/
def Manifest.versionCheck (m : Manifest) (region : Region) : VRes :=
  match m.version with
  | some v => ofCheck (region.versioningScheme.verify v)
  | none => .ok

/-- Gate cross-field check: a gate needs a kong, and the public flags
must agree. -/
def Manifest.gateCheck (m : Manifest) : VRes :=
  match m.gate with
  | some g =>
    if m.kong.isNone then
      .err "Can not have a gate configuration without a kong one"
    else if g.public != m.publiclyAccessible then
      .err "[Migration plan] publiclyAccessible and gate.public must be equal"
    else .ok
  | none => .ok

/-- Mandatory resources check. -/
def Manifest.resourcesCheck (m : Manifest) : VRes :=
  match m.resources with
  | some r => ofCheck r.verify
  | none => .err "Resources is mandatory"

/-- Middle of `Manifest::verify`, skipped for external services:
version scheme, gate/kong cross-check, mandatory resources, and the
per-element checks of all vectorised sub-structures plus configs. -/
def Manifest.verifyMid (m : Manifest) (region : Region) : VRes :=
  vresAll
    [m.versionCheck region,
     m.gateCheck,
     m.resourcesCheck,
     seqAll (m.dependencies.map Dependency.verify),
     seqAll (m.hostAliases.map HostAlias.verify),
     seqAll (m.tolerations.map Tolerations.verify),
     seqAll (m.initContainers.map InitContainer.verify),
     seqAll (m.workers.map Worker.verify),
     seqAll (m.sidecars.map Sidecar.verify),
     seqAll (m.cronJobs.map CronJob.verify),
     seqAll (m.ports.map Port.verify),
     seqAll (m.rbac.map Rbac.verify),
     seqAll (m.persistentVolumes.map PersistentVolume.verify),
     match m.configs with
     | some c => ofCheck c.verify
     | none => .ok]

/-- Replica-count sanity: `self.replicaCount.unwrap()` panics on
`None`; a zero count is a hard error; then the rolling-update
parameters are checked against the count. -/
def Manifest.verifyReplica (m : Manifest) : VRes :=
  match m.replicaCount with
  | none => .panicked "called Option::unwrap() on a None value"
  | some n =>
    if n == 0 then .err "Need replicaCount to be at least 1"
    else
      match m.rollingUpdate with
      | some ru => ofCheck (ru.verify n)
      | none => .ok

/-- Internal-invariant assertions for fields the pipeline guarantees
are set at this point. -/
def Manifest.internalCheck (m : Manifest) : VRes :=
  if m.image.isNone then .err "Image should be set at this point"
  else if m.imageSize.isNone then .err "imageSize must be set at this point"
  else if m.chart.isNone then .err "chart must be set at this point"
  else if m.namespace_ == "" then .err "namespace must be set at this point"
  else if m.regions.isEmpty then .err ("No regions specified for " ++ m.name)
  else if m.environment == "" then
    .err ("Service " ++ m.name ++ " ended up with an empty environment")
  else if m.namespace_ == "" then
    .err ("Service " ++ m.name ++ " ended up with an empty namespace")
  else .ok

/-- Every service that exposes http MUST have a health check; without a
declared http port the absence of a health check is only a warning. -/
def Manifest.healthCheckRule (m : Manifest) : VRes :=
  if m.httpPort.isSome && (m.health.isNone && m.readinessProbe.isNone) then
    .err (m.name ++ " has an httpPort but no health check")
  else .ok

/-- Optional managed-database check. -/
def Manifest.databaseCheck (m : Manifest) : VRes :=
  match m.database with
  | some db => ofCheck db.verify
  | none => .ok

/-- Optional managed-cache check. -/
def Manifest.redisCheck (m : Manifest) : VRes :=
  match m.redis with
  | some r => ofCheck r.verify
  | none => .ok

/-- Tail of `Manifest::verify`: env check, internal invariants, the
health-check rule, and the optional database and redis checks. -/
def Manifest.verifyTail (m : Manifest) : VRes :=
  vresAll
    [ofCheck m.env.verify,
     m.internalCheck,
     m.healthCheckRule,
     m.databaseCheck,
     m.redisCheck]

/-- `Manifest::verify`: the ordered sequence of checks, starting with
the `assert!(self.region != "")` (a panic when violated), with the
early `Ok` return for external services after the head checks. -/
def Manifest.verify (m : Manifest) (conf : Config) (region : Region) : VRes :=
  if m.region == "" then .panicked "assertion failed: self.region is nonempty"
  else
    VRes.seq (m.verifyHead conf)
      (if m.external then .ok
       else
         VRes.seq (m.verifyMid region)
           (VRes.seq m.verifyReplica m.verifyTail))

/-! ### Secret reconciler (embedding of `Manifest::secrets`) -/

/-- Errors from `Manifest::secrets`: its own `bail!` messages or a
propagated vault error. -/
inductive SecErr
  | msg (s : String)
  | vault (e : VErr)
deriving DecidableEq

/-- `Manifest::get_vault_path`: region folder and service name, with
the optional `VaultOpts` override. -/
def Manifest.get_vault_path (m : Manifest) (vc : VaultConfig) : String :=
  match m.vault with
  | some vopts => (vopts.region.getD vc.folder) ++ "/" ++ vopts.name
  | none => vc.folder ++ "/" ++ m.name

/-- `Manifest::get_env_vars`: the env containers of the main
deployment, the sidecars, the workers and the cron jobs, in order. -/
def Manifest.get_env_vars (m : Manifest) : List EnvVars :=
  [m.env] ++ m.sidecars.map Sidecar.env ++ m.workers.map Worker.env
    ++ m.cronJobs.map CronJob.env

/-- The inner template loop of `Manifest::secrets`: insert each
template-sourced pair, and `bail!` when the key was already present
with a value for which `original.iter().any(|x| x == &v)` holds, i.e.
when the previous value equals the new one. -/
def insertTemplates : List (String × String) → SMap → Except SecErr SMap
  | [], ts => .ok ts
  | (k, v) :: rest, ts =>
    if mapLookup ts k == some v then
      .error (.msg ("Secret " ++ k
        ++ " can not be used in multiple templates with different values"))
    else insertTemplates rest (mapInsert ts k v)

/-- The container walk of `Manifest::secrets`: accumulate the set of
vault-sourced keys and the map of template-sourced values. -/
def collectEnv : List EnvVars → List String → SMap →
    Except SecErr (List String × SMap)
  | [], vs, ts => .ok (vs, ts)
  | e :: rest, vs, ts =>
    match insertTemplates e.template_secrets ts with
    | .error er => .error er
    | .ok ts1 => collectEnv rest (setInsertAll vs e.vault_secrets) ts1

/-- The vault-lookup loop of `Manifest::secrets`: one read per
vault-sourced key, inserted into the secrets map. -/
def readVaultKeys (client : Vault) (pth : String) :
    List String → SMap → Except SecErr SMap
  | [], acc => .ok acc
  | k :: rest, acc =>
    match client.read (pth ++ "/" ++ k) with
    | .error e => .error (.vault e)
    | .ok v => readVaultKeys client pth rest (mapInsert acc k v)

/-- One entry of the secret-files loop of `Manifest::secrets`: an
`IN_VAULT` sentinel is replaced by a vault read, any other value is
kept. -/
def resolveFileValue (client : Vault) (pth : String) (k v : String) :
    Except SecErr String :=
  if v == "IN_VAULT" then
    match client.read (pth ++ "/" ++ k) with
    | .error e => .error (.vault e)
    | .ok w => .ok w
  else .ok v

/-- The secret-files loop of `Manifest::secrets`: replace `IN_VAULT`
sentinels by vault reads, and check every value decodes as base64. -/
def resolveSecretFiles (client : Vault) (pth : String) :
    SMap → Except SecErr SMap
  | [] => .ok []
  | (k, v) :: rest =>
    match resolveFileValue client pth k v with
    | .error e => .error e
    | .ok w =>
      if !(base64Decodable w) then
        .error (.msg ("Secret " ++ k ++ " is not base64 encoded"))
      else
        match resolveSecretFiles client pth rest with
        | .error e => .error e
        | .ok rest1 => .ok ((k, w) :: rest1)

/-- `Manifest::secrets` (named `resolveSecrets` here because the Rust
method shares its name with the `secrets` field): populate placeholder
fields with secrets from vault.  Collect vault-sourced and
template-sourced keys over all env containers, fail on a key that is
both templated and fetched from vault, read every vault-sourced key,
union in the template values, then resolve and base64-check the secret
files. -/
def Manifest.resolveSecrets (m : Manifest) (client : Vault) (vc : VaultConfig) :
    Except SecErr Manifest :=
  let pth := m.get_vault_path vc
  match collectEnv m.get_env_vars [] [] with
  | .error e => .error e
  | .ok (vault_secrets, template_secrets) =>
    match firstCommon vault_secrets (mapKeys template_secrets) with
    | some k =>
      .error (.msg ("Secret " ++ k ++ " can not be both templated and fetched from vault"))
    | none =>
      match readVaultKeys client pth vault_secrets m.secrets with
      | .error e => .error e
      | .ok s1 =>
        match resolveSecretFiles client pth m.secretFiles with
        | .error e => .error e
        | .ok files1 =>
          .ok { m with secrets := mapAppend s1 template_secrets,
                       secretFiles := files1 }

/-! ### Auxiliary definitions for the proofs -/

/-- Whether a check result is a panic. -/
def VRes.isPanic : VRes → Bool
  | .panicked _ => true
  | _ => false

/-- The sequence of vault reads performed by the lookup loop of
`Manifest::secrets`, as key/value pairs (specification device for
`readVaultKeys`). -/
def vaultReads (client : Vault) (pth : String) :
    List String → Except SecErr (List (String × String))
  | [] => .ok []
  | k :: rest =>
    match client.read (pth ++ "/" ++ k) with
    | .error e => .error (.vault e)
    | .ok v =>
      match vaultReads client pth rest with
      | .error e => .error e
      | .ok ps => .ok ((k, v) :: ps)

/-! ### Concrete sample inputs (used by the witness theorems) -/

/-- A metadata block whose own check passes. -/
def mdOk : Metadata := ⟨fun _ => .ok ()⟩

/-- An empty env-var container. -/
def envEmpty : EnvVars := ⟨[], [], .ok ()⟩

/-- A sample config. -/
def confA : Config := ⟨["Doves"]⟩

/-- A sample region whose version scheme accepts everything. -/
def regionA : Region := ⟨"dev-uk", ⟨fun _ => .ok ()⟩⟩

/-- A sample regional vault configuration. -/
def vcA : VaultConfig := ⟨"http://vault/", "dev-uk"⟩

/-- A mocked vault client (`Vault::mocked`): dummy token, and the
responders are never consulted by reads. -/
def mockedVault : Vault :=
  ⟨"http://vault/", "INVALID_TOKEN", .Mocked,
   fun _ => .transportFailed, fun _ => .transportFailed⟩

/-- A fully-populated valid manifest: every check of
`Manifest::verify` passes on it. -/
def baseManifest : Manifest :=
  { name := "webapp", publiclyAccessible := false, external := false,
    regions := ["dev-uk"], metadata := some mdOk, dataHandling := none,
    version := none, resources := some ⟨.ok ()⟩, replicaCount := some 2,
    env := envEmpty, secretFiles := [], configs := none, vault := none,
    httpPort := none, ports := [], health := none, dependencies := [],
    workers := [], sidecars := [], readinessProbe := none,
    rollingUpdate := none, tolerations := [], hostAliases := [],
    initContainers := [], cronJobs := [], kong := none, gate := none,
    database := none, redis := none, rbac := [], persistentVolumes := [],
    image := some "webapp", imageSize := some 512, chart := some "base",
    region := "dev-uk", environment := "dev", namespace_ := "apps",
    secrets := [], kind := 0 }

/-- A manifest declaring the key `API_KEY` both as a vault-sourced env
var in the main container and as a template-sourced secret in a
sidecar, with the template value equal to the value the mocked vault
returns for every read. -/
def manifestDual : Manifest :=
  { baseManifest with
      env := ⟨["API_KEY"], [], .ok ()⟩,
      sidecars := [⟨⟨[], [("API_KEY", "aGVsbG8gd29ybGQ=")], .ok ()⟩, .ok ()⟩] }

/-- A manifest with one vault-sourced env var, one template-sourced
secret and one vault-sourced secret file. -/
def manifestVaulty : Manifest :=
  { baseManifest with
      env := ⟨["DATABASE_URL"], [("AUTH", "tpl")], .ok ()⟩,
      secretFiles := [("ssl-keystore", "IN_VAULT")] }

/-- A standard-mode vault client whose get responder always returns an
integer-valued secret and whose list responder returns a keys list
with one sub-folder entry. -/
def stdVault : Vault :=
  ⟨"http://v/", "token", .Standard,
   fun _ => .reply 200 (some ⟨[("value", .I (-2))], 3600⟩),
   fun _ => .reply 200 (some ⟨[("keys", ["FAKE_NUMBER", "sub/", "fake-file"])]⟩)⟩

/-- A standard-mode vault client whose get responder returns a
2xx response whose data map has no `value` entry. -/
def stdVaultNoValue : Vault :=
  ⟨"http://v/", "token", .Standard,
   fun _ => .reply 200 (some ⟨[("other", .S "x")], 3600⟩),
   fun _ => .reply 404 none⟩

/-- A sidecar whose env produces the template key `GLOBAL_KEY` with
resolved value `valB`. -/
def sidecarTplB : Sidecar := ⟨⟨[], [("GLOBAL_KEY", "valB")], .ok ()⟩, .ok ()⟩

/-- A sidecar whose env produces the template key `GLOBAL_KEY` with
resolved value `valA`. -/
def sidecarTplA : Sidecar := ⟨⟨[], [("GLOBAL_KEY", "valA")], .ok ()⟩, .ok ()⟩

/-- A manifest whose main env and sidecar env produce the same
template key with differing resolved values. -/
def manifestTplDiff : Manifest :=
  { baseManifest with env := ⟨[], [("GLOBAL_KEY", "valA")], .ok ()⟩,
                      sidecars := [sidecarTplB] }

/-- A manifest whose main env and sidecar env produce the same
template key with equal resolved values. -/
def manifestTplEq : Manifest :=
  { baseManifest with env := ⟨[], [("GLOBAL_KEY", "valA")], .ok ()⟩,
                      sidecars := [sidecarTplA] }

/-! ### Helper lemmas: check sequencing -/

theorem seq_ok (b : VRes) : VRes.seq .ok b = b := rfl

theorem seq_err (s : String) (b : VRes) : VRes.seq (.err s) b = .err s := rfl

theorem seq_panicked (s : String) (b : VRes) :
    VRes.seq (.panicked s) b = .panicked s := rfl

theorem isPanic_seq {a b : VRes} (ha : a.isPanic = false)
    (hb : b.isPanic = false) : (VRes.seq a b).isPanic = false := by
  cases a <;> simp_all [VRes.seq, VRes.isPanic]

theorem ofCheck_noPanic (r : Except String Unit) :
    (ofCheck r).isPanic = false := by
  cases r <;> rfl

theorem foldl_seq_noPanic (l : List VRes) (init : VRes)
    (hi : init.isPanic = false) (hl : ∀ r ∈ l, r.isPanic = false) :
    (l.foldl VRes.seq init).isPanic = false := by
  induction l generalizing init with
  | nil => exact hi
  | cons a t ih =>
    exact ih (VRes.seq init a)
      (isPanic_seq hi (hl a (List.mem_cons_self a t)))
      (fun r hr => hl r (List.mem_cons_of_mem a hr))

theorem vresAll_noPanic (l : List VRes) (hl : ∀ r ∈ l, r.isPanic = false) :
    (vresAll l).isPanic = false :=
  foldl_seq_noPanic l .ok rfl hl

theorem seqAll_noPanic (l : List (Except String Unit)) :
    (seqAll l).isPanic = false := by
  refine vresAll_noPanic _ (fun r hr => ?_)
  rcases List.mem_map.mp hr with ⟨c, _, rfl⟩
  exact ofCheck_noPanic c

theorem noPanic_cases {a : VRes} (h : a.isPanic = false) :
    a = .ok ∨ ∃ s, a = .err s := by
  cases a with
  | ok => exact Or.inl rfl
  | err s => exact Or.inr ⟨s, rfl⟩
  | panicked s => simp [VRes.isPanic] at h

theorem verifyHead_noPanic (m : Manifest) (conf : Config) :
    (m.verifyHead conf).isPanic = false := by
  unfold Manifest.verifyHead
  split
  · rfl
  split
  · rfl
  split
  · rfl
  apply isPanic_seq
  · cases m.dataHandling with
    | none => rfl
    | some dh => exact ofCheck_noPanic dh.verify
  · cases m.metadata with
    | none => rfl
    | some md => exact ofCheck_noPanic (md.verify conf.teams)

theorem versionCheck_noPanic (m : Manifest) (region : Region) :
    (m.versionCheck region).isPanic = false := by
  unfold Manifest.versionCheck
  cases m.version with
  | none => rfl
  | some v => exact ofCheck_noPanic (region.versioningScheme.verify v)

theorem gateCheck_noPanic (m : Manifest) : m.gateCheck.isPanic = false := by
  unfold Manifest.gateCheck
  cases m.gate with
  | none => rfl
  | some g =>
    dsimp only
    split
    · rfl
    split <;> rfl

theorem resourcesCheck_noPanic (m : Manifest) :
    m.resourcesCheck.isPanic = false := by
  unfold Manifest.resourcesCheck
  cases m.resources with
  | none => rfl
  | some r => exact ofCheck_noPanic r.verify

theorem verifyMid_noPanic (m : Manifest) (region : Region) :
    (m.verifyMid region).isPanic = false := by
  refine vresAll_noPanic _ (fun r hr => ?_)
  simp only [Manifest.verifyMid, List.mem_cons, List.not_mem_nil, or_false] at hr
  rcases hr with rfl | rfl | rfl | rfl | rfl | rfl | rfl | rfl | rfl | rfl | rfl | rfl | rfl | rfl
  · exact versionCheck_noPanic m region
  · exact gateCheck_noPanic m
  · exact resourcesCheck_noPanic m
  · exact seqAll_noPanic _
  · exact seqAll_noPanic _
  · exact seqAll_noPanic _
  · exact seqAll_noPanic _
  · exact seqAll_noPanic _
  · exact seqAll_noPanic _
  · exact seqAll_noPanic _
  · exact seqAll_noPanic _
  · exact seqAll_noPanic _
  · exact seqAll_noPanic _
  · cases m.configs with
    | none => rfl
    | some c => exact ofCheck_noPanic c.verify

/-! ### Helper lemmas: association-list maps -/

theorem mapKeys_nil : mapKeys [] = [] := rfl

theorem mapKeys_cons (k v : String) (t : SMap) :
    mapKeys ((k, v) :: t) = k :: mapKeys t := rfl

theorem mapLookup_mapInsert (m : SMap) (k v k1 : String) :
    mapLookup (mapInsert m k v) k1
      = if k = k1 then some v else mapLookup m k1 := by
  induction m with
  | nil => simp [mapInsert, mapLookup]
  | cons p t ih =>
    obtain ⟨k2, v2⟩ := p
    by_cases h2 : k2 = k
    · subst h2
      by_cases h1 : k2 = k1 <;> simp [mapInsert, mapLookup, h1]
    · by_cases h1 : k2 = k1
      · subst h1
        have : ¬ k = k2 := fun e => h2 e.symm
        simp [mapInsert, mapLookup, h2, this]
      · simp [mapInsert, mapLookup, h2, h1, ih]

theorem mapInsert_self (m : SMap) (k v : String)
    (h : mapLookup m k = some v) : mapInsert m k v = m := by
  induction m with
  | nil => simp [mapLookup] at h
  | cons p t ih =>
    obtain ⟨k2, v2⟩ := p
    by_cases h2 : k2 = k
    · subst h2
      have h1 : v2 = v := by simpa [mapLookup] using h
      subst h1
      simp [mapInsert]
    · simp only [mapLookup, if_neg h2] at h
      simp [mapInsert, h2, ih h]

theorem mapAppend_nil (m : SMap) : mapAppend m [] = m := rfl

theorem mapAppend_cons (m : SMap) (k v : String) (ps : List (String × String)) :
    mapAppend m ((k, v) :: ps) = mapAppend (mapInsert m k v) ps := rfl

theorem mapAppend_self (m : SMap) (ps : List (String × String))
    (h : ∀ p ∈ ps, mapLookup m p.1 = some p.2) : mapAppend m ps = m := by
  induction ps with
  | nil => rfl
  | cons p t ih =>
    obtain ⟨k, v⟩ := p
    rw [mapAppend_cons, mapInsert_self m k v (h (k, v) (List.mem_cons_self _ _))]
    exact ih (fun q hq => h q (List.mem_cons_of_mem _ hq))

theorem mapLookup_mapAppend_not_mem (m : SMap) (ps : List (String × String))
    (k : String) (h : ¬ k ∈ mapKeys ps) :
    mapLookup (mapAppend m ps) k = mapLookup m k := by
  induction ps generalizing m with
  | nil => rfl
  | cons p t ih =>
    obtain ⟨k1, v1⟩ := p
    rw [mapKeys_cons, List.mem_cons] at h
    push_neg at h
    rw [mapAppend_cons, ih _ h.2, mapLookup_mapInsert,
      if_neg (fun e => h.1 e.symm)]

theorem mapLookup_mapAppend_mem (m : SMap) (ps : List (String × String))
    (k v : String) (hnd : (mapKeys ps).Nodup) (hmem : (k, v) ∈ ps) :
    mapLookup (mapAppend m ps) k = some v := by
  induction ps generalizing m with
  | nil => cases hmem
  | cons p t ih =>
    obtain ⟨k1, v1⟩ := p
    rw [mapKeys_cons, List.nodup_cons] at hnd
    rcases List.mem_cons.mp hmem with heq | hmem2
    · injection heq with e1 e2
      subst e1; subst e2
      rw [mapAppend_cons, mapLookup_mapAppend_not_mem _ _ _ hnd.1,
        mapLookup_mapInsert, if_pos rfl]
    · rw [mapAppend_cons]
      exact ih _ hnd.2 hmem2

theorem mem_mapKeys_mapInsert (m : SMap) (k v a : String) :
    a ∈ mapKeys (mapInsert m k v) ↔ a = k ∨ a ∈ mapKeys m := by
  induction m with
  | nil => simp [mapInsert, mapKeys]
  | cons p t ih =>
    obtain ⟨k1, v1⟩ := p
    by_cases h : k1 = k
    · subst h
      simp [mapInsert, mapKeys_cons, List.mem_cons]
    · simp only [mapInsert, if_neg h, mapKeys_cons, List.mem_cons, ih]
      tauto

theorem nodup_mapKeys_mapInsert (m : SMap) (k v : String)
    (h : (mapKeys m).Nodup) : (mapKeys (mapInsert m k v)).Nodup := by
  induction m with
  | nil => simp [mapInsert, mapKeys]
  | cons p t ih =>
    obtain ⟨k1, v1⟩ := p
    rw [mapKeys_cons, List.nodup_cons] at h
    by_cases hk : k1 = k
    · subst hk
      have e : mapInsert ((k1, v1) :: t) k1 v = (k1, v) :: t := by
        simp [mapInsert]
      rw [e, mapKeys_cons, List.nodup_cons]
      exact h
    · have e : mapInsert ((k1, v1) :: t) k v = (k1, v1) :: mapInsert t k v := by
        simp [mapInsert, hk]
      rw [e, mapKeys_cons, List.nodup_cons]
      refine ⟨?_, ih h.2⟩
      rw [mem_mapKeys_mapInsert]
      rintro (rfl | hmem)
      · exact hk rfl
      · exact h.1 hmem

/-! ### Helper lemmas: sorted sets -/

theorem mem_setInsert (l : List String) (k a : String) :
    a ∈ setInsert l k ↔ a = k ∨ a ∈ l := by
  induction l with
  | nil => simp [setInsert]
  | cons k1 t ih =>
    by_cases h1 : k = k1
    · subst h1
      have e : setInsert (k :: t) k = k :: t := by simp [setInsert]
      rw [e]
      simp [List.mem_cons]
    · by_cases h2 : k < k1
      · have e : setInsert (k1 :: t) k = k :: k1 :: t := by
          simp [setInsert, h1, h2]
        rw [e]
        simp [List.mem_cons]
      · have e : setInsert (k1 :: t) k = k1 :: setInsert t k := by
          simp [setInsert, h1, h2]
        rw [e]
        simp [List.mem_cons, ih]
        tauto

theorem sorted_setInsert (l : List String) (k : String)
    (h : l.Sorted (· < ·)) : (setInsert l k).Sorted (· < ·) := by
  induction l with
  | nil => simp [setInsert]
  | cons k1 t ih =>
    rw [List.sorted_cons] at h
    by_cases h1 : k = k1
    · subst h1
      simp only [setInsert, if_pos rfl]
      exact List.sorted_cons.mpr h
    · by_cases h2 : k < k1
      · simp only [setInsert, if_neg h1, if_pos h2]
        refine List.sorted_cons.mpr ⟨?_, List.sorted_cons.mpr h⟩
        intro b hb
        rcases List.mem_cons.mp hb with rfl | hb2
        · exact h2
        · exact lt_trans h2 (h.1 b hb2)
      · simp only [setInsert, if_neg h1, if_neg h2]
        refine List.sorted_cons.mpr ⟨?_, ih h.2⟩
        intro b hb
        rcases (mem_setInsert _ _ _).mp hb with rfl | hb2
        · exact lt_of_le_of_ne (not_lt.mp h2) (fun e => h1 e.symm)
        · exact h.1 b hb2

theorem sorted_setInsertAll (ks : List String) (s : List String)
    (h : s.Sorted (· < ·)) : (setInsertAll s ks).Sorted (· < ·) := by
  induction ks generalizing s with
  | nil => exact h
  | cons k t ih => exact ih _ (sorted_setInsert _ _ h)

theorem contains_eq_true_of_mem (l : List String) (a : String)
    (h : a ∈ l) : l.contains a = true := by
  induction l with
  | nil => cases h
  | cons b t ih =>
    rcases List.mem_cons.mp h with rfl | h2
    · simp [List.contains]
    · simp [List.contains, List.elem_cons]
      rcases ih h2 with h3
      simp [List.contains] at h3
      tauto

theorem firstCommon_none (xs ys : List String)
    (h : firstCommon xs ys = none) (a : String) (ha : a ∈ xs) :
    ¬ a ∈ ys := by
  intro hy
  have hfind := List.find?_eq_none.mp h a ha
  exact hfind (contains_eq_true_of_mem ys a hy)

/-! ### Helper lemmas: the secret reconciler -/

theorem readVaultKeys_eq (client : Vault) (pth : String) (ks : List String)
    (acc : SMap) :
    readVaultKeys client pth ks acc
      = (vaultReads client pth ks).map (fun ps => mapAppend acc ps) := by
  induction ks generalizing acc with
  | nil => rfl
  | cons k t ih =>
    simp only [readVaultKeys, vaultReads]
    cases client.read (pth ++ "/" ++ k) with
    | error e => rfl
    | ok v =>
      dsimp only
      rw [ih]
      cases vaultReads client pth t with
      | error e => rfl
      | ok ps => rfl

theorem vaultReads_keys (client : Vault) (pth : String) (ks : List String)
    (ps : List (String × String)) (h : vaultReads client pth ks = .ok ps) :
    ps.map Prod.fst = ks := by
  induction ks generalizing ps with
  | nil =>
    simp only [vaultReads] at h
    injection h with h
    subst h
    rfl
  | cons k t ih =>
    simp only [vaultReads] at h
    split at h
    · cases h
    · split at h
      · cases h
      · injection h with h
        subst h
        rename_i ps1 _
        simp [ih ps1 (by assumption)]

theorem insertTemplates_nodup (l : List (String × String)) (ts ts' : SMap)
    (h : insertTemplates l ts = .ok ts') (hnd : (mapKeys ts).Nodup) :
    (mapKeys ts').Nodup := by
  induction l generalizing ts with
  | nil =>
    simp only [insertTemplates] at h
    injection h with h
    subst h
    exact hnd
  | cons p t ih =>
    obtain ⟨k, v⟩ := p
    simp only [insertTemplates] at h
    split at h
    · cases h
    · exact ih _ h (nodup_mapKeys_mapInsert _ _ _ hnd)

theorem collectEnv_nodup (es : List EnvVars) (vs : List String) (ts : SMap)
    (vs' : List String) (ts' : SMap)
    (h : collectEnv es vs ts = .ok (vs', ts'))
    (hnd : (mapKeys ts).Nodup) : (mapKeys ts').Nodup := by
  induction es generalizing vs ts with
  | nil =>
    simp only [collectEnv] at h
    injection h with h
    rw [Prod.mk.injEq] at h
    rw [← h.2]
    exact hnd
  | cons e rest ih =>
    simp only [collectEnv] at h
    split at h
    · cases h
    · rename_i ts1 heq
      exact ih _ _ h (insertTemplates_nodup _ _ _ heq hnd)

theorem collectEnv_sorted (es : List EnvVars) (vs : List String) (ts : SMap)
    (vs' : List String) (ts' : SMap)
    (h : collectEnv es vs ts = .ok (vs', ts'))
    (hs : vs.Sorted (· < ·)) : vs'.Sorted (· < ·) := by
  induction es generalizing vs ts with
  | nil =>
    simp only [collectEnv] at h
    injection h with h
    rw [Prod.mk.injEq] at h
    rw [← h.1]
    exact hs
  | cons e rest ih =>
    simp only [collectEnv] at h
    split at h
    · cases h
    · exact ih _ _ h (sorted_setInsertAll _ _ hs)

theorem base64_IN_VAULT_false : base64Decodable "IN_VAULT" = false := by decide

theorem resolveFileValue_of_b64 (client : Vault) (pth k w : String)
    (hw : base64Decodable w = true) :
    resolveFileValue client pth k w = .ok w := by
  have hne : (w == "IN_VAULT") = false := by
    cases hbe : w == "IN_VAULT" with
    | false => rfl
    | true =>
      exfalso
      rw [eq_of_beq hbe, base64_IN_VAULT_false] at hw
      cases hw
  simp [resolveFileValue, hne]

theorem resolveSecretFiles_idem (client : Vault) (pth : String)
    (F F1 : SMap) (h : resolveSecretFiles client pth F = .ok F1) :
    resolveSecretFiles client pth F1 = .ok F1 := by
  induction F generalizing F1 with
  | nil =>
    simp only [resolveSecretFiles] at h
    injection h with h
    subst h
    rfl
  | cons p t ih =>
    obtain ⟨k, v⟩ := p
    simp only [resolveSecretFiles] at h
    split at h
    · cases h
    · rename_i w hw
      split at h
      · cases h
      · rename_i hb
        rw [Bool.not_eq_true', Bool.not_eq_false] at hb
        split at h
        · cases h
        · rename_i rest1 hrest
          injection h with h
          subst h
          simp only [resolveSecretFiles, resolveFileValue_of_b64 client pth k w hb,
            hb, Bool.not_true, Bool.false_eq_true, if_false, ih rest1 hrest]

/-! ### Claim C8 -/

/-- C8: in mocked mode, `Vault::read` returns the same fixed
deterministic base64 constant for every key and never fails.  The
theorem quantifies over every vault handle of mocked mode, in
particular over every responder, so the result cannot depend on any
network interaction. -/
theorem vault_read_mocked (v : Vault) (key : String) (h : v.mode = .Mocked) :
    v.read key = .ok "aGVsbG8gd29ybGQ=" := by
  simp [Vault.read, h]

/-- C8 witness: a concrete mocked read. -/
theorem vault_read_mocked_witness :
    mockedVault.read "dev-uk/webapp/FAKE_SECRET" = .ok "aGVsbG8gd29ybGQ=" :=
  vault_read_mocked mockedVault "dev-uk/webapp/FAKE_SECRET" rfl

/-! ### Claim C9 -/

/-- C9: in standard mode, on a 2xx response whose body parses, a
string-typed `value` field is returned as-is, an integer-typed one is
coerced to its decimal string form, and a missing `value` entry yields
`InvalidSecretForm` naming the path `secret/<key>`. -/
theorem vault_read_standard (v : Vault) (key : String) (status : Nat)
    (secret : Secret) (hmode : v.mode = .Standard)
    (hresp : v.getResponse (v.addr ++ "v1/" ++ ("secret/" ++ key))
      = .reply status (some secret))
    (h2xx : is2xx status) :
    (∀ s, secretDataLookup secret.data "value" = some (.S s) →
        v.read key = .ok s)
    ∧ (∀ i, secretDataLookup secret.data "value" = some (.I i) →
        v.read key = .ok (ToString.toString i))
    ∧ (secretDataLookup secret.data "value" = none →
        v.read key = .error (.InvalidSecretForm ("secret/" ++ key))) := by
  have hgs : v.get_secret ("secret/" ++ key) = .ok secret := by
    simp only [Vault.get_secret]
    rw [hresp]
    dsimp only
    rw [if_pos h2xx]
  have hread : v.read key
      = (match secretDataLookup secret.data "value" with
         | none => .error (.InvalidSecretForm ("secret/" ++ key))
         | some sv => .ok sv.asString) := by
    simp only [Vault.read, hmode]
    rw [if_neg (by decide), hgs]
  refine ⟨?_, ?_, ?_⟩
  · intro s hs
    rw [hread, hs]
    rfl
  · intro i hi
    rw [hread, hi]
    rfl
  · intro hn
    rw [hread, hn]

/-- C9 witness: an integer-valued secret is coerced to its decimal
string form on a concrete standard-mode client. -/
theorem vault_read_standard_witness :
    stdVault.read "dev-uk/test-shipcat/FAKE_NUMBER" = .ok "-2" :=
  (vault_read_standard stdVault "dev-uk/test-shipcat/FAKE_NUMBER" 200
      ⟨[("value", .I (-2))], 3600⟩ rfl rfl (by constructor <;> decide)).2.1
    (-2) rfl

/-! ### Claim C10 -/

/-- C10: a successful list returns exactly the entries of `data.keys`
without a trailing slash, in order; a non-2xx status yields
`UnexpectedHttpStatus` with the status and the URL; a parsed body
without a `keys` list is an error. -/
theorem vault_list_spec (v : Vault) (path : String) (status : Nat)
    (parsed : Option ListSecrets)
    (hresp : v.listResponse (v.addr ++ "v1/secret/" ++ path ++ "?list=true")
      = .reply status parsed) :
    (∀ lsec ks, is2xx status → parsed = some lsec →
        listDataLookup lsec.data "keys" = some ks →
        v.list path = .ok (ks.filter (fun e => !(endsWithSlash e)))
        ∧ (∀ s, s ∈ ks.filter (fun e => !(endsWithSlash e))
            ↔ s ∈ ks ∧ endsWithSlash s = false)
        ∧ (ks.filter (fun e => !(endsWithSlash e))).Sublist ks)
    ∧ (¬ is2xx status →
        v.list path = .error (.UnexpectedHttpStatus status
          (v.addr ++ "v1/secret/" ++ path ++ "?list=true")))
    ∧ (∀ lsec, is2xx status → parsed = some lsec →
        listDataLookup lsec.data "keys" = none →
        v.list path = .error (.MissingKeysList
          (v.addr ++ "v1/secret/" ++ path ++ "?list=true"))) := by
  refine ⟨?_, ?_, ?_⟩
  · intro lsec ks h2 hp hk
    subst hp
    refine ⟨by simp [Vault.list, hresp, h2, hk], ?_, List.filter_sublist _⟩
    intro s
    simp [List.mem_filter]
  · intro h2
    simp [Vault.list, hresp, h2]
  · intro lsec h2 hp hk
    subst hp
    simp [Vault.list, hresp, h2, hk]

/-- C10 witness: a concrete list response with a sub-folder entry,
which is filtered out. -/
theorem vault_list_spec_witness :
    stdVault.list "dev-uk/test-shipcat" = .ok ["FAKE_NUMBER", "fake-file"] :=
  ((vault_list_spec stdVault "dev-uk/test-shipcat" 200
      (some ⟨[("keys", ["FAKE_NUMBER", "sub/", "fake-file"])]⟩) rfl).1
    ⟨[("keys", ["FAKE_NUMBER", "sub/", "fake-file"])]⟩
    ["FAKE_NUMBER", "sub/", "fake-file"]
    (by constructor <;> decide) rfl rfl).1

/-! ### Claim C2 -/

/-- C2 counterexample: an external service does not skip the metadata
check, so an otherwise well-formed external manifest with no metadata
fails validation instead of returning Ok. -/
theorem verify_external_counterexample :
    ({ baseManifest with external := true, metadata := none } : Manifest).verify
        confA regionA = .err "Missing metadata for webapp"
    ∧ ({ baseManifest with external := true, metadata := none } : Manifest).verify
        confA regionA ≠ .ok := by
  constructor
  · decide
  · decide

/-- C2 (amended): for an external manifest, verify runs the
region-membership, name-pattern, data-handling and metadata checks
(the head checks), and then returns Ok regardless of every remaining
field. -/
theorem verify_external (m : Manifest) (conf : Config) (region : Region)
    (hreg : m.region ≠ "") (hext : m.external = true)
    (hhead : m.verifyHead conf = .ok) :
    m.verify conf region = .ok := by
  have h0 : (m.region == "") = false := beq_eq_false_iff_ne.mpr hreg
  simp [Manifest.verify, h0, hhead, hext, VRes.seq]

/-- C2 witness: an external service with otherwise-invalid fields
(missing resources, missing replica count, missing image) passes. -/
theorem verify_external_witness :
    ({ baseManifest with external := true, resources := none, replicaCount := none, image := none } : Manifest).verify confA regionA
      = .ok :=
  verify_external _ confA regionA (by decide) rfl (by decide)

/-! ### Claim C3 -/

/-- C3 counterexample: a manifest with `replicaCount: 0` that is marked
external passes validation, so a zero replica count does not fail
regardless of all other fields. -/
theorem verify_replica_zero_counterexample :
    ({ baseManifest with external := true, replicaCount := some 0 } : Manifest).verify
        confA regionA = .ok
    ∧ ({ baseManifest with external := true, replicaCount := some 0 } : Manifest).replicaCount
        = some 0 := by
  constructor
  · decide
  · rfl

/-- C3 (amended): for every non-external manifest (with the region
assert satisfied) declaring `replicaCount: 0`, verify returns an error;
when the checks before the replica-count step all pass, the error is
the replica-count message. -/
theorem verify_replica_zero (m : Manifest) (conf : Config) (region : Region)
    (hreg : m.region ≠ "") (hext : m.external = false)
    (hrc : m.replicaCount = some 0) :
    (∃ s, m.verify conf region = .err s)
    ∧ (m.verifyHead conf = .ok → m.verifyMid region = .ok →
        m.verify conf region = .err "Need replicaCount to be at least 1") := by
  have h0 : (m.region == "") = false := beq_eq_false_iff_ne.mpr hreg
  have hrep : m.verifyReplica = .err "Need replicaCount to be at least 1" := by
    simp [Manifest.verifyReplica, hrc]
  constructor
  · rcases noPanic_cases (verifyHead_noPanic m conf) with hh | ⟨s, hh⟩
    · rcases noPanic_cases (verifyMid_noPanic m region) with hm | ⟨s, hm⟩
      · exact ⟨"Need replicaCount to be at least 1",
          by simp [Manifest.verify, h0, hh, hext, hm, hrep, VRes.seq]⟩
      · exact ⟨s, by simp [Manifest.verify, h0, hh, hext, hm, VRes.seq]⟩
    · exact ⟨s, by simp [Manifest.verify, h0, hh, VRes.seq]⟩
  · intro hh hm
    simp [Manifest.verify, h0, hh, hext, hm, hrep, VRes.seq]

/-- C3 witness: a concrete non-external manifest with replica count
zero fails with the replica-count message. -/
theorem verify_replica_zero_witness :
    ({ baseManifest with replicaCount := some 0 } : Manifest).verify confA regionA
      = .err "Need replicaCount to be at least 1" :=
  (verify_replica_zero _ confA regionA (by decide) rfl rfl).2
    (by decide) (by decide)

/-! ### Claim C6 -/

/-- C6: a non-external manifest that reaches the replica-count step
with `replicaCount` unset makes verify panic (an `unwrap` on `None`)
instead of returning an error value. -/
theorem verify_replica_none_panics (m : Manifest) (conf : Config)
    (region : Region) (hreg : m.region ≠ "")
    (hhead : m.verifyHead conf = .ok) (hext : m.external = false)
    (hmid : m.verifyMid region = .ok) (hrc : m.replicaCount = none) :
    m.verify conf region = .panicked "called Option::unwrap() on a None value" := by
  have h0 : (m.region == "") = false := beq_eq_false_iff_ne.mpr hreg
  simp [Manifest.verify, h0, hhead, hext, hmid, Manifest.verifyReplica, hrc,
    VRes.seq]

/-- C6 witness: a concrete valid manifest with `replicaCount` removed
panics. -/
theorem verify_replica_none_panics_witness :
    ({ baseManifest with replicaCount := none } : Manifest).verify confA regionA
      = .panicked "called Option::unwrap() on a None value" :=
  verify_replica_none_panics _ confA regionA (by decide) (by decide) rfl
    (by decide) rfl

/-! ### Claim C4 -/

/-- C4: for a non-external manifest reaching the health-check step, a
declared http port without either `health` or `readinessProbe` is a
hard error naming the service and the missing health check, while
without a declared http port the missing health check is only a
warning and verify can return Ok. -/
theorem verify_health_rule (m : Manifest) (conf : Config) (region : Region)
    (hreg : m.region ≠ "") (hhead : m.verifyHead conf = .ok)
    (hext : m.external = false) (hmid : m.verifyMid region = .ok)
    (hrep : m.verifyReplica = .ok) (henv : m.env.verify = .ok ())
    (hint : m.internalCheck = .ok) :
    (m.httpPort.isSome = true → m.health = none → m.readinessProbe = none →
        m.verify conf region
          = .err (m.name ++ " has an httpPort but no health check"))
    ∧ (m.httpPort = none → m.databaseCheck = .ok → m.redisCheck = .ok →
        m.verify conf region = .ok) := by
  have h0 : (m.region == "") = false := beq_eq_false_iff_ne.mpr hreg
  constructor
  · intro hp hh hr
    have hhc : m.healthCheckRule
        = .err (m.name ++ " has an httpPort but no health check") := by
      simp [Manifest.healthCheckRule, hp, hh, hr]
    simp [Manifest.verify, h0, hhead, hext, hmid, hrep, Manifest.verifyTail,
      vresAll, henv, hint, hhc, ofCheck, VRes.seq]
  · intro hp hdb hrd
    have hhc : m.healthCheckRule = .ok := by
      simp [Manifest.healthCheckRule, hp]
    simp [Manifest.verify, h0, hhead, hext, hmid, hrep, Manifest.verifyTail,
      vresAll, henv, hint, hhc, hdb, hrd, ofCheck, VRes.seq]

/-- C4 witness: a concrete service with `httpPort: 8000` and no health
check fails with a message naming the service and the health check,
while the same service without an http port and without a health check
passes. -/
theorem verify_health_rule_witness :
    ({ baseManifest with httpPort := some 8000 } : Manifest).verify confA regionA
      = .err "webapp has an httpPort but no health check"
    ∧ baseManifest.verify confA regionA = .ok := by
  constructor
  · exact (verify_health_rule _ confA regionA (by decide) (by decide) rfl
      (by decide) (by decide) rfl (by decide)).1 rfl rfl rfl
  · exact (verify_health_rule baseManifest confA regionA (by decide) (by decide)
      rfl (by decide) (by decide) rfl (by decide)).2 rfl rfl rfl

/-! ### Claim C1 -/

/-- C1 counterexample: a key declared both as a vault-sourced env var
and as a template-sourced secret fails reconciliation even when the
two sourcings agree on the value — the template value equals the value
the mocked vault returns for the key, yet `Manifest::secrets` errors. -/
theorem dual_sourcing_identical_counterexample :
    manifestDual.resolveSecrets mockedVault vcA
      = .error (.msg "Secret API_KEY can not be both templated and fetched from vault")
    ∧ mockedVault.read "dev-uk/webapp/API_KEY" = .ok "aGVsbG8gd29ybGQ=" := by
  constructor
  · rfl
  · rfl

/-- C1 (amended): whenever a key is collected both as vault-sourced
and as template-sourced, `Manifest::secrets` returns the
dual-sourcing error regardless of the values involved — the check
happens before any vault value is fetched. -/
theorem dual_sourcing_errors (m : Manifest) (client : Vault)
    (vc : VaultConfig) (vs : List String) (ts : SMap) (k : String)
    (hcol : collectEnv m.get_env_vars [] [] = .ok (vs, ts))
    (hv : k ∈ vs) (ht : k ∈ mapKeys ts) :
    ∃ k2, m.resolveSecrets client vc
      = .error (.msg ("Secret " ++ k2
          ++ " can not be both templated and fetched from vault")) := by
  unfold Manifest.resolveSecrets
  rw [hcol]
  dsimp only
  cases hfc : firstCommon vs (mapKeys ts) with
  | none => exact absurd ht (firstCommon_none vs (mapKeys ts) hfc k hv)
  | some k2 => exact ⟨k2, rfl⟩

/-- C1 witness: the amended theorem applied at the concrete
dual-sourced manifest. -/
theorem dual_sourcing_errors_witness :
    ∃ k2, manifestDual.resolveSecrets mockedVault vcA
      = .error (.msg ("Secret " ++ k2
          ++ " can not be both templated and fetched from vault")) :=
  dual_sourcing_errors manifestDual mockedVault vcA ["API_KEY"]
    [("API_KEY", "aGVsbG8gd29ybGQ=")] "API_KEY" rfl
    (by decide) (by decide)

/-! ### Claim C7 -/

/-- C7: when two env containers of one manifest produce the same
template-sourced key, reconciliation errors if the two values are
EQUAL (with the message about differing values), and succeeds if they
differ, the later container's value winning. -/
theorem template_conflict (m : Manifest) (client : Vault)
    (vc : VaultConfig) (sc : Sidecar) (k v1 v2 : String)
    (henv1 : m.env.vault_secrets = [])
    (henv2 : m.env.template_secrets = [(k, v1)])
    (hsc : m.sidecars = [sc]) (hsc1 : sc.env.vault_secrets = [])
    (hsc2 : sc.env.template_secrets = [(k, v2)])
    (hw : m.workers = []) (hcj : m.cronJobs = [])
    (hsf : m.secretFiles = []) :
    (v1 = v2 → m.resolveSecrets client vc
        = .error (.msg ("Secret " ++ k
            ++ " can not be used in multiple templates with different values")))
    ∧ (v1 ≠ v2 → ∃ m2, m.resolveSecrets client vc = .ok m2
        ∧ mapLookup m2.secrets k = some v2) := by
  have hge : m.get_env_vars = [m.env, sc.env] := by
    simp [Manifest.get_env_vars, hsc, hw, hcj]
  constructor
  · intro heq
    subst heq
    have hcol : collectEnv m.get_env_vars [] []
        = .error (.msg ("Secret " ++ k
            ++ " can not be used in multiple templates with different values")) := by
      rw [hge]
      simp [collectEnv, insertTemplates, henv1, henv2, hsc1, hsc2,
        setInsertAll, setInsert, mapLookup, mapInsert]
    unfold Manifest.resolveSecrets
    rw [hcol]
  · intro hne
    have hbe : (some v1 == some v2) = false :=
      beq_eq_false_iff_ne.mpr (fun e => hne (Option.some.inj e))
    have hcol : collectEnv m.get_env_vars [] [] = .ok ([], [(k, v2)]) := by
      rw [hge]
      simp [collectEnv, insertTemplates, henv1, henv2, hsc1, hsc2,
        setInsertAll, setInsert, mapLookup, mapInsert, hbe]
    refine ⟨{ m with secrets := mapAppend m.secrets [(k, v2)], secretFiles := [] }, ?_, ?_⟩
    · unfold Manifest.resolveSecrets
      rw [hcol, hsf]
      rfl
    · show mapLookup (mapAppend m.secrets [(k, v2)]) k = some v2
      rw [mapAppend_cons, mapAppend_nil, mapLookup_mapInsert, if_pos rfl]

/-- C7 witness: the two branches at concrete manifests — equal
template values error, differing ones succeed with the sidecar (later)
value winning. -/
theorem template_conflict_witness :
    manifestTplEq.resolveSecrets mockedVault vcA
      = .error (.msg "Secret GLOBAL_KEY can not be used in multiple templates with different values")
    ∧ (∃ m2, manifestTplDiff.resolveSecrets mockedVault vcA = .ok m2
        ∧ mapLookup m2.secrets "GLOBAL_KEY" = some "valB") := by
  constructor
  · exact (template_conflict manifestTplEq mockedVault vcA sidecarTplA
      "GLOBAL_KEY" "valA" "valA" rfl rfl rfl rfl rfl rfl rfl rfl).1 rfl
  · exact (template_conflict manifestTplDiff mockedVault vcA sidecarTplB
      "GLOBAL_KEY" "valA" "valB" rfl rfl rfl rfl rfl rfl rfl rfl).2
      (by decide)

/-! ### Claim C5 -/

/-- C5: secret reconciliation is idempotent.  If `Manifest::secrets`
succeeds once against a client (the store, a pure responder here, is
unchanged between the calls), then running it again on the resulting
manifest succeeds and returns that manifest unchanged — in particular
the secrets map is identical to the one produced by the single call. -/
theorem resolveSecrets_idem (m : Manifest) (client : Vault)
    (vc : VaultConfig) (m1 : Manifest)
    (h : m.resolveSecrets client vc = .ok m1) :
    m1.resolveSecrets client vc = .ok m1 := by
  unfold Manifest.resolveSecrets at h
  dsimp only at h
  split at h
  · cases h
  rename_i vs ts hcol
  split at h
  · cases h
  rename_i hfc
  split at h
  · cases h
  rename_i s1 hrd
  split at h
  · cases h
  rename_i f1 hsf
  injection h with hm1
  subst hm1
  -- facts about the data produced by the first call
  rw [readVaultKeys_eq] at hrd
  cases hvr : vaultReads client (m.get_vault_path vc) vs with
  | error e => rw [hvr] at hrd; cases hrd
  | ok ps =>
  rw [hvr] at hrd
  simp only [Except.map] at hrd
  injection hrd with hs1
  subst hs1
  have hksps : ps.map Prod.fst = vs := vaultReads_keys _ _ _ _ hvr
  have hsorted : vs.Sorted (· < ·) :=
    collectEnv_sorted _ _ _ _ _ hcol List.sorted_nil
  have hnodup_vs : vs.Nodup := hsorted.nodup
  have hnodup_ts : (mapKeys ts).Nodup :=
    collectEnv_nodup _ _ _ _ _ hcol List.nodup_nil
  have hlook : ∀ p ∈ ps,
      mapLookup (mapAppend (mapAppend m.secrets ps) ts) p.1 = some p.2 := by
    rintro ⟨a, b⟩ hp
    have hain : a ∈ vs := by
      rw [← hksps]
      exact List.mem_map_of_mem Prod.fst hp
    have hnotts : ¬ a ∈ mapKeys ts :=
      firstCommon_none vs (mapKeys ts) hfc a hain
    rw [mapLookup_mapAppend_not_mem _ _ _ hnotts]
    refine mapLookup_mapAppend_mem _ _ _ _ ?_ hp
    show (ps.map Prod.fst).Nodup
    rw [hksps]
    exact hnodup_vs
  have hlook2 : ∀ p ∈ ts,
      mapLookup (mapAppend (mapAppend m.secrets ps) ts) p.1 = some p.2 := by
    rintro ⟨a, b⟩ hp
    exact mapLookup_mapAppend_mem _ _ _ _ hnodup_ts hp
  have hrd2 : readVaultKeys client (m.get_vault_path vc) vs
      (mapAppend (mapAppend m.secrets ps) ts)
      = .ok (mapAppend (mapAppend m.secrets ps) ts) := by
    rw [readVaultKeys_eq, hvr]
    simp only [Except.map]
    rw [mapAppend_self _ _ hlook]
  have hsf2 : resolveSecretFiles client (m.get_vault_path vc) f1 = .ok f1 :=
    resolveSecretFiles_idem _ _ _ _ hsf
  have hB : mapAppend (mapAppend (mapAppend m.secrets ps) ts) ts
      = mapAppend (mapAppend m.secrets ps) ts :=
    mapAppend_self _ _ hlook2
  -- the second call
  have hge2 : ({ m with secrets := mapAppend (mapAppend m.secrets ps) ts, secretFiles := f1 } : Manifest).get_env_vars = m.get_env_vars := rfl
  have hgp2 : ({ m with secrets := mapAppend (mapAppend m.secrets ps) ts, secretFiles := f1 } : Manifest).get_vault_path vc = m.get_vault_path vc := rfl
  unfold Manifest.resolveSecrets
  rw [hge2, hcol]
  dsimp only
  rw [hgp2, hfc]
  dsimp only
  rw [hrd2]
  dsimp only
  rw [hsf2]
  dsimp only
  rw [hB]

/-- C5 witness: the idempotence theorem applied to the result of a
successful concrete reconciliation, evaluated by `rfl`. -/
theorem resolveSecrets_idem_witness :
    ({ manifestVaulty with secrets := [("DATABASE_URL", "aGVsbG8gd29ybGQ="), ("AUTH", "tpl")], secretFiles := [("ssl-keystore", "aGVsbG8gd29ybGQ=")] } : Manifest).resolveSecrets mockedVault vcA
      = .ok { manifestVaulty with secrets := [("DATABASE_URL", "aGVsbG8gd29ybGQ="), ("AUTH", "tpl")], secretFiles := [("ssl-keystore", "aGVsbG8gd29ybGQ=")] } :=
  resolveSecrets_idem manifestVaulty mockedVault vcA _ rfl

end Shipcat
